/-
  Verification of the authentication and authorization core of the
  go-task-manager web application (Go / Gin / GORM / bcrypt / JWT).

  The development shallowly embeds the program:
  - `hashPassword` / `checkPassword` (main.go) over a structural model of
    the bcrypt credential string format,
  - the JWT token service (`generateToken`, token verification inside
    `authMiddleware`, `getJWTSecret`) which lives in the repository's
    auth.go (referenced by main.go, main_test.go and the README's project
    layout) and is modelled from the specification,
  - the HTTP handlers `login`, `getTasks`, `createTask`, `getTask`,
    `updateTask`, `deleteTask` (main.go) over an explicit list-of-rows
    model of the database state.
  Machine integers (Go uint) are modelled as Nat; time.Time as Nat
  (seconds); randomness (bcrypt salt) as an explicit parameter;
  fallible operations return Except / Option.
-/
import Mathlib

namespace TaskManager

/-! ## Token service (modelled from the spec; auth.go is not in the sources) -/

/-- Modelled from the spec: the internal failure taxonomy of the Token
Service's `verify` operation (auth.go is missing from the sources; §4.2
and §7 of the spec list exactly these four client-caused failure kinds). -/
inductive TokenError
  | malformedToken
  | invalidSignature
  | tokenExpired
  | missingIdentity
  deriving DecidableEq, Repr

/-- Modelled from the spec: the failure of `issue` when the secret is
empty or the signer errors (spec §4.2, `SigningFailure`). -/
inductive SignError
  | signingFailure
  deriving DecidableEq, Repr

/-- Modelled from the spec: the payload of an identity token — "a signed,
self-contained assertion of `{subject identifier, issued-at time, expiry
time}`" (spec §3). `sub` is optional because `verify` step 4 must be able
to fail with `MissingIdentity` when "the payload lacks a usable subject". -/
structure Claims where
  sub : Option Nat
  iat : Nat
  exp : Nat
  deriving DecidableEq, Repr

/-- Modelled from the spec: the symmetric signature over the payload,
idealized as a perfect MAC — a value that determines the key and the
signed payload, so that it "is verifiable only by holders of the signing
secret; any alteration of the payload invalidates the signature" (spec §3). -/
structure Mac where
  key : String
  msg : Claims
  deriving DecidableEq, Repr

/-- Modelled from the spec: signing a payload with the process-wide
secret using a symmetric signing algorithm (spec §4.2). -/
def hmacSign (secret : String) (c : Claims) : Mac := ⟨secret, c⟩

/-- Modelled from the spec: the wire form of a token presented by a
client — either an unparseable string ("fails with `MalformedToken` if
the format is unparseable") or a parsed payload together with the
signature carried by the token. -/
inductive TokenWire
  | malformed (raw : String)
  | parsed (claims : Claims) (sig : Mac)
  deriving DecidableEq, Repr

/-- Modelled from the spec: the token lifetime, a "fixed skew from
configuration, default policy: short-lived, e.g. on the order of hours"
(spec §4.2); 24 hours in seconds. -/
def tokenLifetime : Nat := 24 * 60 * 60

/-- Modelled from the spec: `issue(userID) → token, error` (spec §4.2,
called `generateToken` in the code): binds `userID`, the current
timestamp and an expiry timestamp, signs with the process-wide secret;
"fails with `SigningFailure` if the secret is empty". -/
def generateToken (secret : String) (now : Nat) (userID : Nat) :
    Except SignError TokenWire :=
  if secret = "" then .error .signingFailure
  else
    let c : Claims := ⟨some userID, now, now + tokenLifetime⟩
    .ok (.parsed c (hmacSign secret c))

/-- Modelled from the spec: `verify(token) → userID, error` (spec §4.2),
in the spec's order: 1. parse (`MalformedToken`), 2. signature against
the process-wide secret (`InvalidSignature`), 3. expiry (`TokenExpired`
"if current time is past the embedded expiry"), 4. extract subject
(`MissingIdentity`). -/
def verifyToken (secret : String) (now : Nat) (w : TokenWire) :
    Except TokenError Nat :=
  match w with
  | .malformed _ => .error .malformedToken
  | .parsed c sg =>
    if sg = hmacSign secret c then
      if c.exp < now then .error .tokenExpired
      else
        match c.sub with
        | some u => .ok u
        | none => .error .missingIdentity
    else .error .invalidSignature

/-! ## Data model (main.go lines 18-56) -/

/-- The Task model (main.go lines 30-39); `gorm.io` time stamps as Nat,
the `User` back-reference field is an ORM join artifact and carries no
handler-visible state. -/
structure Task where
  ID : Nat
  Title : String
  Description : String
  Completed : Bool
  UserID : Nat
  CreatedAt : Nat
  UpdatedAt : Nat
  deriving DecidableEq, Repr

/-- The User model (main.go lines 19-27); `Password` stores the bcrypt
credential string, never the plaintext. -/
structure User where
  ID : Nat
  Username : String
  Email : String
  Password : String
  deriving DecidableEq, Repr

/-! ## Credential Manager (main.go lines 181-189 over a structural model
of golang.org/x/crypto/bcrypt)

The bcrypt library is modelled at the level of its documented contract:
a credential string carries a version tag, a cost, a salt field and a
derived-key field of fixed widths; `CompareHashAndPassword` parses the
stored string, re-derives the key from the supplied password with the
stored salt and cost, and errors on any parse failure or mismatch.  The
base64 radix of the real format is replaced by a fixed-width decimal
field codec; the Blowfish-based derivation is replaced by a concrete
deterministic function of (password, salt, cost) — the properties the
claims need (determinism, totality of comparison, rejection of malformed
strings) do not depend on the particular permutation inside. -/

/-- The digit value of a character, `none` for non-digits. -/
def digitVal (c : Char) : Option Nat :=
  if '0' ≤ c ∧ c ≤ '9' then some (c.toNat - 48) else none

/-- Fixed-width field encoder: exactly `w` decimal digit characters,
least significant first, encoding `n % 10 ^ w`. -/
def natDigits : Nat → Nat → List Char
  | 0, _ => []
  | w + 1, n => Nat.digitChar (n % 10) :: natDigits w (n / 10)

/-- Field decoder matching `natDigits`; `none` if any character is not a
digit. -/
def decDigits : List Char → Option Nat
  | [] => some 0
  | c :: cs =>
    match digitVal c, decDigits cs with
    | some d, some m => some (d + 10 * m)
    | _, _ => none

/-- The parsed components of a bcrypt credential: cost (2 digits), salt
(22 characters) and derived key (31 characters) — the widths of the
`$2a$` format, whose total length 60 the repository's own test asserts. -/
structure BcryptCred where
  cost : Nat
  salt : Nat
  digest : Nat
  deriving DecidableEq, Repr

/-- Render a credential in the `$2a$cost$saltdigest` shape. -/
def encodeCred (c : BcryptCred) : List Char :=
  '$' :: '2' :: 'a' :: '$' ::
    (natDigits 2 c.cost ++ '$' :: (natDigits 22 c.salt ++ natDigits 31 c.digest))

/-- Parse a stored credential string back into its components; `none` on
any malformed input (wrong magic, wrong field lengths, non-digit field
characters) — the cases where `bcrypt.CompareHashAndPassword` returns a
decoding error. -/
def parseCred (l : List Char) : Option BcryptCred :=
  match l with
  | a :: b :: v :: d :: rest =>
    if a = '$' ∧ b = '2' ∧ v = 'a' ∧ d = '$' then
      match decDigits (rest.take 2) with
      | none => none
      | some cost =>
        match rest.drop 2 with
        | e :: body =>
          if e = '$' ∧ body.length = 22 + 31 then
            match decDigits (body.take 22), decDigits (body.drop 22) with
            | some salt, some digest => some ⟨cost, salt, digest⟩
            | _, _ => none
          else none
        | [] => none
    else none
  | _ => none

/-- The key derivation underlying bcrypt, as a concrete deterministic
function of the password bytes, the salt and the cost, with output below
2^32 (comfortably inside the 31-character key field). -/
def bcryptKdf (password : List Char) (salt cost : Nat) : Nat :=
  password.foldl (fun a ch => (a * 33 + ch.toNat) % 4294967296)
    ((5381 + salt + cost) % 4294967296)

/-- Embeds `hashPassword` (main.go lines 181-184): `bcrypt.GenerateFromPassword`
with the hard-coded cost 14.  The per-hash random salt the library draws
is passed explicitly (state-passing for the randomness source), reduced
to the 22-character salt field the format stores. -/
def hashPassword (salt : Nat) (password : String) : String :=
  ⟨encodeCred ⟨14, salt % 10 ^ 22, bcryptKdf password.data (salt % 10 ^ 22) 14⟩⟩

/-- Embeds `checkPassword` (main.go lines 186-189):
`bcrypt.CompareHashAndPassword` parses the stored credential, re-derives
the key and compares; the wrapper returns `err == nil`, so every parse
failure or mismatch comes back as `false` — the function is total and
never panics. -/
def checkPassword (password hash : String) : Bool :=
  match parseCred hash.data with
  | none => false
  | some c => bcryptKdf password.data c.salt c.cost == c.digest

/-- Request body of POST /api/login (main.go lines 42-45). -/
structure LoginRequest where
  username : String
  password : String
  deriving DecidableEq, Repr

/-- Request body of task creation / update (main.go lines 53-56). -/
structure TaskRequest where
  title : String
  description : String
  deriving DecidableEq, Repr

/-! ## Configuration (main.go lines 174-179; spec §6) -/

/-- Embeds `getEnv` (main.go lines 174-179): the environment is a total map
from variable names to values, with `""` playing `os.Getenv`'s role for
unset variables; a non-empty value wins over the default. -/
def getEnv (env : String → String) (key defaultValue : String) : String :=
  if env key ≠ "" then env key else defaultValue

/-- Reading a decimal integer out of a configuration value (the
`strconv.Atoi` shape: every character a digit, at least one). -/
def decNat (s : String) : Option Nat :=
  match s.data with
  | [] => none
  | l => l.foldl
      (fun acc c =>
        match acc, digitVal c with
        | some a, some d => some (a * 10 + d)
        | _, _ => none)
      (some 0)

/-- Modelled from the spec: spec §6 says the core "consumes from
configuration loading: a signing secret (string) and a credential
work-factor (integer), both with documented defaults if absent".  No
configuration key for the work factor appears anywhere in the repository,
so one is posited (`BCRYPT_COST`) with the code's constant 14 as the
documented default; this is the refinement target the code is compared
against. -/
def specWorkFactor (env : String → String) : Nat :=
  match decNat (getEnv env "BCRYPT_COST" "") with
  | some n => n
  | none => 14

/-! ## HTTP boundary: responses, middleware, handlers -/

/-- JSON-level response of a protected-route handler: a task body, a
task-list body, a message body, or an error body, each with its HTTP
status code (main.go handlers). -/
inductive ApiResp
  | jsonTask (status : Nat) (t : Task)
  | jsonTasks (ts : List Task)
  | jsonMsg (status : Nat) (message : String)
  | jsonErr (status : Nat) (message : String)
  deriving DecidableEq, Repr

/-- Modelled from the spec: the single boundary-visible unauthorized
outcome the middleware answers on every verification failure (spec §4.3,
§7: the internal error taxonomy "collapses to a single 'unauthorized'
outcome with no detail leaked"). -/
def unauthorizedResp : ApiResp := .jsonErr 401 "Unauthorized"

/-- The Authorization header of an incoming request: absent, present but
not a well-formed `Bearer <token>` header, or a bearer token. -/
inductive AuthHeader
  | missing
  | notBearer (raw : String)
  | bearer (w : TokenWire)

/-- Modelled from the spec: the identity-binding middleware
(`authMiddleware` in auth.go, which is missing from the sources; spec
§4.3): extract the bearer token, verify it, and on success run the
downstream handler with the bound user identifier attached to the
request context; "on any verification failure, short-circuit the request
with an unauthorized response before any business logic or data access
occurs".  The data store is threaded explicitly so that "no data access"
is visible as an unchanged store. -/
def authMiddleware (secret : String) (now : Nat) (h : AuthHeader)
    (handler : Nat → List Task → ApiResp × List Task) (db : List Task) :
    ApiResp × List Task :=
  match h with
  | .missing => (unauthorizedResp, db)
  | .notBearer _ => (unauthorizedResp, db)
  | .bearer w =>
    match verifyToken secret now w with
    | .error _ => (unauthorizedResp, db)
    | .ok uid => handler uid db

/-- The `db.Where("username = ?", name).First(&user)` lookup of the
login handler: the first stored user carrying the given username (the
schema puts a unique constraint on usernames). -/
def findUser (users : List User) (name : String) : Option User :=
  users.find? (fun u => u.Username == name)

/-- JSON-level response of the login handler: status code plus the
fields the handler can put in the body (message, error, token, and the
id/username/email triple echoed on success). -/
structure LoginResult where
  status : Nat
  message : Option String
  error : Option String
  token : Option TokenWire
  user : Option (Nat × String × String)
  deriving DecidableEq, Repr

/-- Embeds `login` (main.go lines 242-278) over the users table.  Request-body
bind failures (400, main.go lines 244-247) happen before this logic and
are independent of the stored data; they are out of the claims' scope. -/
def login (users : List User) (secret : String) (now : Nat)
    (req : LoginRequest) : LoginResult :=
  match findUser users req.username with
  | none => ⟨401, none, some "Invalid credentials", none, none⟩
  | some user =>
    if !checkPassword req.password user.Password then
      ⟨401, none, some "Invalid credentials", none, none⟩
    else
      match generateToken secret now user.ID with
      | .error _ => ⟨500, none, some "Failed to generate token", none, none⟩
      | .ok w =>
        ⟨200, some "Login successful", none, some w,
          some (user.ID, user.Username, user.Email)⟩

/-! ## Task handlers (main.go lines 280-396)

Each handler receives the requester's user identifier (the `user_id`
context value the middleware bound) and the task table, and returns its
JSON response together with the table after the operation.  The task-id
URL parameter is taken already scanned to a number; the
`fmt.Sscanf(.., "%d", ..)` failure branch (400) precedes every path the
claims speak about and touches no data. -/

/-- The `db.Where("id = ? AND user_id = ?", taskID, userID).First`
lookup shared by getTask/updateTask/deleteTask. -/
def findTask (db : List Task) (tid uid : Nat) : Option Task :=
  db.find? (fun t => t.ID == tid && t.UserID == uid)

/-- The auto-incremented primary key GORM assigns on insert: one more
than the largest id in the table. -/
def nextId (db : List Task) : Nat :=
  (db.map Task.ID).foldl max 0 + 1

/-- Insertion step of the `ORDER BY created_at DESC` presentation
order. -/
def insertByCreatedDesc (t : Task) : List Task → List Task
  | [] => [t]
  | u :: us =>
    if u.CreatedAt ≤ t.CreatedAt then t :: u :: us
    else u :: insertByCreatedDesc t us

/-- The `ORDER BY created_at DESC` ordering of a result set (insertion
sort by creation time, newest first). -/
def sortByCreatedDesc : List Task → List Task
  | [] => []
  | t :: ts => insertByCreatedDesc t (sortByCreatedDesc ts)

/-- Embeds `getTasks` (main.go lines 280-290): the requester's own rows
(`WHERE user_id = ?`), newest first. -/
def getTasks (uid : Nat) (db : List Task) : ApiResp :=
  .jsonTasks (sortByCreatedDesc (db.filter (fun t => t.UserID == uid)))

/-- Embeds `createTask` (main.go lines 292-316): inserts a fresh row owned by
the requester, not yet completed, stamped with the current time. -/
def createTask (uid : Nat) (req : TaskRequest) (now : Nat)
    (db : List Task) : ApiResp × List Task :=
  let t : Task := ⟨nextId db, req.title, req.description, false, uid, now, now⟩
  (.jsonTask 201 t, db ++ [t])

/-- Embeds `getTask` (main.go lines 318-335). -/
def getTask (uid tid : Nat) (db : List Task) : ApiResp :=
  match findTask db tid uid with
  | none => .jsonErr 404 "Task not found"
  | some t => .jsonTask 200 t

/-- The `db.Save(&task)` write-back: replaces the row with the matching
primary key. -/
def saveTask (db : List Task) (t : Task) : List Task :=
  db.map (fun u => if u.ID == t.ID then t else u)

/-- Embeds `updateTask` (main.go lines 337-370): on a hit, overwrites Title and
Description from the request, refreshes UpdatedAt, and saves. -/
def updateTask (uid tid : Nat) (req : TaskRequest) (now : Nat)
    (db : List Task) : ApiResp × List Task :=
  match findTask db tid uid with
  | none => (.jsonErr 404 "Task not found", db)
  | some t =>
    let t' := { t with Title := req.title, Description := req.description,
                       UpdatedAt := now }
    (.jsonTask 200 t', saveTask db t')

/-- Embeds `deleteTask` (main.go lines 372-396): on a hit, removes the row by
primary key. -/
def deleteTask (uid tid : Nat) (db : List Task) : ApiResp × List Task :=
  match findTask db tid uid with
  | none => (.jsonErr 404 "Task not found", db)
  | some t =>
    (.jsonMsg 200 "Task deleted successfully",
      db.filter (fun u => u.ID != t.ID))

/-! ## Codec and derivation lemmas -/

/-- Decoding a digit character produced by the encoder recovers its
value. -/
theorem digitVal_digitChar : ∀ d : Nat, d < 10 → digitVal (Nat.digitChar d) = some d := by
  decide

/-- A fixed-width field has exactly its width. -/
theorem natDigits_length : ∀ (w n : Nat), (natDigits w n).length = w := by
  intro w
  induction w with
  | zero => intro n; rfl
  | succ w ih => intro n; simp [natDigits, ih]

/-- Field round-trip: decoding an encoded field yields the value modulo
the field capacity. -/
theorem decDigits_natDigits : ∀ (w n : Nat), decDigits (natDigits w n) = some (n % 10 ^ w) := by
  intro w
  induction w with
  | zero => intro n; simp [natDigits, decDigits, Nat.mod_one]
  | succ w ih =>
    intro n
    have hd := digitVal_digitChar (n % 10) (Nat.mod_lt n (by decide))
    simp only [natDigits, decDigits, hd, ih (n / 10)]
    rw [pow_succ', Nat.mod_mul]

/-- Credential round-trip: a credential whose fields fit their widths
parses back exactly from its rendering. -/
theorem parseCred_encodeCred (c : BcryptCred) (h1 : c.cost < 100)
    (h2 : c.salt < 10 ^ 22) (h3 : c.digest < 10 ^ 31) :
    parseCred (encodeCred c) = some c := by
  obtain ⟨cost, salt, digest⟩ := c
  have htake2 :
      (natDigits 2 cost ++ '$' :: (natDigits 22 salt ++ natDigits 31 digest)).take 2 =
        natDigits 2 cost := by
    rw [← natDigits_length 2 cost]; exact List.take_left _ _
  have hdrop2 :
      (natDigits 2 cost ++ '$' :: (natDigits 22 salt ++ natDigits 31 digest)).drop 2 =
        '$' :: (natDigits 22 salt ++ natDigits 31 digest) := by
    rw [← natDigits_length 2 cost]; exact List.drop_left _ _
  have hslen : (natDigits 22 salt ++ natDigits 31 digest).length = 22 + 31 := by
    simp [natDigits_length]
  have hstake : (natDigits 22 salt ++ natDigits 31 digest).take 22 = natDigits 22 salt := by
    rw [← natDigits_length 22 salt]; exact List.take_left _ _
  have hsdrop : (natDigits 22 salt ++ natDigits 31 digest).drop 22 = natDigits 31 digest := by
    rw [← natDigits_length 22 salt]; exact List.drop_left _ _
  have hcost : cost % 10 ^ 2 = cost := Nat.mod_eq_of_lt (by simpa using h1)
  have hsalt : salt % 10 ^ 22 = salt := Nat.mod_eq_of_lt h2
  have hdig : digest % 10 ^ 31 = digest := Nat.mod_eq_of_lt h3
  simp [parseCred, encodeCred, htake2, hdrop2, hslen, hstake, hsdrop,
    decDigits_natDigits, hcost, hsalt, hdig]
  exact ⟨by simpa using h1, by simpa using h2, by simpa using h3⟩

/-- The fold inside the key derivation never leaves its modulus. -/
theorem foldlMod_lt (l : List Char) :
    ∀ a : Nat, a < 4294967296 →
      l.foldl (fun a ch => (a * 33 + ch.toNat) % 4294967296) a < 4294967296 := by
  induction l with
  | nil => intro a h; exact h
  | cons c cs ih => intro a _; exact ih _ (Nat.mod_lt _ (by decide))

/-- The derived key fits the key field. -/
theorem bcryptKdf_lt (p : List Char) (salt cost : Nat) :
    bcryptKdf p salt cost < 4294967296 :=
  foldlMod_lt p _ (Nat.mod_lt _ (by decide))

/-! ## List-model lemmas -/

/-- Membership is preserved by the ordering insertion step. -/
theorem mem_insertByCreatedDesc {t u : Task} {l : List Task} :
    t ∈ insertByCreatedDesc u l ↔ t = u ∨ t ∈ l := by
  induction l with
  | nil => simp [insertByCreatedDesc]
  | cons v vs ih =>
    simp only [insertByCreatedDesc]
    split
    · simp
    · simp [ih]
      tauto

/-- The `ORDER BY created_at DESC` presentation holds exactly the rows
of the unordered result set. -/
theorem mem_sortByCreatedDesc {t : Task} {l : List Task} :
    t ∈ sortByCreatedDesc l ↔ t ∈ l := by
  induction l with
  | nil => simp [sortByCreatedDesc]
  | cons v vs ih => simp [sortByCreatedDesc, mem_insertByCreatedDesc, ih]

/-- The `id AND user_id` lookup misses whenever every row with the
requested id belongs to someone else. -/
theorem findTask_eq_none {db : List Task} {tid uid : Nat}
    (h : ∀ t ∈ db, t.ID = tid → t.UserID ≠ uid) :
    findTask db tid uid = none := by
  unfold findTask
  rw [List.find?_eq_none]
  intro t ht
  simp only [Bool.and_eq_true, beq_iff_eq, not_and]
  exact h t ht

/-! ## The claims -/

/-- C1: For every valid user identifier U, verifying a token freshly
issued for U (Token Service issue then verify) succeeds and returns
exactly U as the bound identity — and the middleware therefore hands
exactly U to the downstream handler. -/
theorem c1_issue_verify_round_trip (u : Nat) (secret : String) (now : Nat)
    (w : TokenWire) (hgen : generateToken secret now u = .ok w) :
    verifyToken secret now w = .ok u ∧
      ∀ handler db, authMiddleware secret now (.bearer w) handler db = handler u db := by
  by_cases hs : secret = ""
  · simp [generateToken, hs] at hgen
  · simp only [generateToken, if_neg hs] at hgen
    cases hgen
    have hexp : ¬ (now + tokenLifetime < now) := by omega
    constructor
    · simp [verifyToken, hexp]
    · intro handler db
      simp [authMiddleware, verifyToken, hexp]

/-- C1 witness: issuing for user 7 at time 1000 with a concrete secret
and verifying right away yields user 7. -/
theorem c1_witness :
    verifyToken "test-secret" 1000
      (.parsed ⟨some 7, 1000, 87400⟩ ⟨"test-secret", ⟨some 7, 1000, 87400⟩⟩) = .ok 7 :=
  (c1_issue_verify_round_trip 7 "test-secret" 1000 _ (by rfl)).1

/-- C2: whenever the bearer token of a protected request fails
verification — for any of the four internal reasons — the middleware
answers the one unauthorized response, which does not depend on the
failure kind, and neither the downstream handler nor the store is
touched (the result is the same for every handler, and the store comes
back unchanged). -/
theorem c2_middleware_short_circuit (secret : String) (now : Nat) (w : TokenWire)
    (e : TokenError) (handler : Nat → List Task → ApiResp × List Task)
    (db : List Task) (hver : verifyToken secret now w = .error e) :
    authMiddleware secret now (.bearer w) handler db = (unauthorizedResp, db) := by
  simp [authMiddleware, hver]

/-- C2 witness: a malformed bearer token is answered with the
unauthorized response and the store is untouched, for a handler that
would have changed the response. -/
theorem c2_witness :
    authMiddleware "s" 0 (.bearer (.malformed "junk"))
      (fun _ db => (.jsonMsg 200 "ran", db)) [] = (unauthorizedResp, []) :=
  c2_middleware_short_circuit "s" 0 (.malformed "junk") .malformedToken
    (fun _ db => (.jsonMsg 200 "ran", db)) [] rfl

/-- C3: a token issued for U whose payload is altered in any way after
issuance (any well-formed payload different from the signed one, carried
with the original signature) fails verification with the
signature-related failure, at every verification time; and an alteration
that destroys well-formedness also never verifies (it fails as
malformed). -/
theorem c3_tampered_token_rejected (secret : String) (now t u : Nat)
    (c c' : Claims) (m : Mac)
    (hgen : generateToken secret now u = .ok (.parsed c m)) (hne : c' ≠ c) :
    verifyToken secret t (.parsed c' m) = .error .invalidSignature ∧
      ∀ raw, verifyToken secret t (.malformed raw) = .error .malformedToken := by
  refine ⟨?_, fun raw => rfl⟩
  by_cases hs : secret = ""
  · simp [generateToken, hs] at hgen
  · simp only [generateToken, if_neg hs] at hgen
    obtain ⟨hc, hm⟩ := by simpa using hgen
    have : m ≠ hmacSign secret c' := by
      rw [← hm]
      simp [hmacSign, Mac.mk.injEq]
      intro h
      exact hne ((hc.symm.trans h).symm)
    simp [verifyToken, this]

/-- C3 witness: flipping the subject of a concretely issued token while
keeping its signature is rejected as a signature failure. -/
theorem c3_witness :
    verifyToken "test-secret" 2000
      (.parsed ⟨some 8, 1000, 87400⟩ ⟨"test-secret", ⟨some 7, 1000, 87400⟩⟩) =
      .error .invalidSignature :=
  (c3_tampered_token_rejected "test-secret" 1000 2000 7
    ⟨some 7, 1000, 87400⟩ ⟨some 8, 1000, 87400⟩
    ⟨"test-secret", ⟨some 7, 1000, 87400⟩⟩ (by rfl) (by decide)).1

/-- C4: verifying a non-empty plaintext against the credential freshly
hashed from it succeeds, for every salt the library may draw. -/
theorem c4_hash_verify_round_trip (p : String) (salt : Nat) (_hp : p ≠ "") :
    checkPassword p (hashPassword salt p) = true := by
  have hs : salt % 10 ^ 22 < 10 ^ 22 := Nat.mod_lt _ (by norm_num)
  have hd : bcryptKdf p.data (salt % 10 ^ 22) 14 < 10 ^ 31 :=
    lt_trans (bcryptKdf_lt _ _ _) (by norm_num)
  have hround := parseCred_encodeCred
    ⟨14, salt % 10 ^ 22, bcryptKdf p.data (salt % 10 ^ 22) 14⟩ (by norm_num) hs hd
  simp only [checkPassword, hashPassword, hround, beq_self_eq_true]

/-- C4 witness: the round-trip at the repository's own example password. -/
theorem c4_witness :
    checkPassword "password123" (hashPassword 7 "password123") = true :=
  c4_hash_verify_round_trip "password123" 7 (by decide)

/-- C5: credential verification is a total Boolean function — it is
defined on every plaintext and every stored string and can only return
`false` or `true`, never throw — and it returns `false` both on stored
strings the credential parser rejects and on any parsed credential whose
stored key the recomputed key misses. -/
theorem c5_checkPassword_total_on_mismatch (p h : String) :
    (parseCred h.data = none → checkPassword p h = false) ∧
      (∀ c, parseCred h.data = some c →
        bcryptKdf p.data c.salt c.cost ≠ c.digest → checkPassword p h = false) := by
  constructor
  · intro hn
    simp [checkPassword, hn]
  · intro c hc hne
    simp [checkPassword, hc, hne]

/-- C5 witness: a malformed stored credential makes verification return
`false` (rather than fail). -/
theorem c5_witness :
    checkPassword "secret-attempt" "not-a-bcrypt-hash" = false :=
  (c5_checkPassword_total_on_mismatch "secret-attempt" "not-a-bcrypt-hash").1 (by decide)

/-- C6: a login whose username is stored and whose password verifies
against the stored credential succeeds (status 200) and carries a token;
a login with an unknown username, or a known username and a
non-verifying password, fails with 401 and carries no token. -/
theorem c6_login_outcomes (users : List User) (secret : String) (now : Nat)
    (req : LoginRequest) :
    (∀ u, findUser users req.username = some u →
        checkPassword req.password u.Password = true → secret ≠ "" →
        (login users secret now req).status = 200 ∧
          (login users secret now req).token.isSome = true) ∧
      (findUser users req.username = none →
        login users secret now req =
          ⟨401, none, some "Invalid credentials", none, none⟩) ∧
      (∀ u, findUser users req.username = some u →
        checkPassword req.password u.Password = false →
        login users secret now req =
          ⟨401, none, some "Invalid credentials", none, none⟩) := by
  refine ⟨?_, ?_, ?_⟩
  · intro u hu hc hsec
    simp [login, hu, hc, generateToken, hsec]
  · intro hn
    simp [login, hn]
  · intro u hu hc
    simp [login, hu, hc]

/-- C6 witness: alice logs in with her stored password and gets 200 plus
a token. -/
theorem c6_witness :
    (login [⟨1, "alice", "alice@example.com", hashPassword 7 "password123"⟩]
        "test-secret" 0 ⟨"alice", "password123"⟩).status = 200 ∧
      (login [⟨1, "alice", "alice@example.com", hashPassword 7 "password123"⟩]
        "test-secret" 0 ⟨"alice", "password123"⟩).token.isSome = true :=
  (c6_login_outcomes [⟨1, "alice", "alice@example.com", hashPassword 7 "password123"⟩]
      "test-secret" 0 ⟨"alice", "password123"⟩).1
    ⟨1, "alice", "alice@example.com", hashPassword 7 "password123"⟩
    (by rfl) (by decide) (by decide)

/-- C7 counterexample: the claim that the hash cost tracks a configured
work factor is false — with the work factor configured to 10, the
credential the code produces still carries cost 14 (the cost is the
hard-coded literal in `hashPassword`). -/
theorem c7_counterexample :
    ¬ ∀ env : String → String, ∀ salt : Nat, ∀ p : String,
        (parseCred (hashPassword salt p).data).map BcryptCred.cost =
          some (specWorkFactor env) := by
  intro h
  have h10 := h (fun k => if k = "BCRYPT_COST" then "10" else "") 0 "a"
  have hcode : (parseCred (hashPassword 0 "a").data).map BcryptCred.cost = some 14 := by
    decide
  have hconf : specWorkFactor (fun k => if k = "BCRYPT_COST" then "10" else "") = 10 := by
    decide
  rw [hcode, hconf] at h10
  exact absurd (Option.some.inj h10) (by decide)

/-- C7 amended: the credential work factor is not consumed from
configuration — every credential `hashPassword` produces carries the
fixed hard-coded cost 14, whatever the salt and password. -/
theorem c7_cost_fixed (salt : Nat) (p : String) :
    (parseCred (hashPassword salt p).data).map BcryptCred.cost = some 14 := by
  have hs : salt % 10 ^ 22 < 10 ^ 22 := Nat.mod_lt _ (by norm_num)
  have hd : bcryptKdf p.data (salt % 10 ^ 22) 14 < 10 ^ 31 :=
    lt_trans (bcryptKdf_lt _ _ _) (by norm_num)
  have hround := parseCred_encodeCred
    ⟨14, salt % 10 ^ 22, bcryptKdf p.data (salt % 10 ^ 22) 14⟩ (by norm_num) hs hd
  simp only [hashPassword, hround]
  rfl

/-- C8: every task operation is scoped to the requester: getTasks
returns only rows owned by the requester; createTask stamps the new row
with the requester's id; and getTask, updateTask and deleteTask answer
404 Not Found with the store unchanged whenever every row carrying the
requested id belongs to a different user. -/
theorem c8_user_scoping (uid : Nat) (db : List Task) :
    (∀ l, getTasks uid db = .jsonTasks l → ∀ t ∈ l, t.UserID = uid) ∧
      (∀ req now, createTask uid req now db =
        (.jsonTask 201 ⟨nextId db, req.title, req.description, false, uid, now, now⟩,
          db ++ [⟨nextId db, req.title, req.description, false, uid, now, now⟩])) ∧
      (∀ tid, (∀ t ∈ db, t.ID = tid → t.UserID ≠ uid) →
        getTask uid tid db = .jsonErr 404 "Task not found" ∧
          (∀ req now, updateTask uid tid req now db =
            (.jsonErr 404 "Task not found", db)) ∧
          deleteTask uid tid db = (.jsonErr 404 "Task not found", db)) := by
  refine ⟨?_, ?_, ?_⟩
  · intro l hl t ht
    simp only [getTasks, ApiResp.jsonTasks.injEq] at hl
    rw [← hl] at ht
    have := (List.mem_filter.1 (mem_sortByCreatedDesc.1 ht)).2
    simpa using this
  · intro req now
    rfl
  · intro tid hdiff
    have hnone := findTask_eq_none hdiff
    exact ⟨by simp [getTask, hnone], fun req now => by simp [updateTask, hnone],
      by simp [deleteTask, hnone]⟩

/-- C8 witness: user 1 asking for task 5, which belongs to user 2, gets
404 from getTask, updateTask and deleteTask, and the store is unchanged. -/
theorem c8_witness :
    getTask 1 5 [⟨5, "t", "d", false, 2, 0, 0⟩] = .jsonErr 404 "Task not found" ∧
      updateTask 1 5 ⟨"x", "y"⟩ 3 [⟨5, "t", "d", false, 2, 0, 0⟩] =
        (.jsonErr 404 "Task not found", [⟨5, "t", "d", false, 2, 0, 0⟩]) ∧
      deleteTask 1 5 [⟨5, "t", "d", false, 2, 0, 0⟩] =
        (.jsonErr 404 "Task not found", [⟨5, "t", "d", false, 2, 0, 0⟩]) := by
  have h := (c8_user_scoping 1 [⟨5, "t", "d", false, 2, 0, 0⟩]).2.2 5 (by decide)
  exact ⟨h.1, h.2.1 ⟨"x", "y"⟩ 3, h.2.2⟩

/-- C9: a failed login answers the one 401 "Invalid credentials"
response whether the username is unknown or the username is stored and
the password wrong — the two responses are equal, so the body does not
reveal whether the username exists. -/
theorem c9_login_failure_indistinguishable (users : List User) (secret : String)
    (now : Nat) (r1 r2 : LoginRequest) (u : User)
    (h1 : findUser users r1.username = none)
    (h2 : findUser users r2.username = some u)
    (h3 : checkPassword r2.password u.Password = false) :
    login users secret now r1 = login users secret now r2 ∧
      login users secret now r1 =
        ⟨401, none, some "Invalid credentials", none, none⟩ := by
  constructor
  · simp [login, h1, h2, h3]
  · simp [login, h1]

/-- C9 witness: an unknown user "bob" and alice with a wrong password
receive literally the same response. -/
theorem c9_witness :
    login [⟨1, "alice", "alice@example.com", hashPassword 7 "password123"⟩]
        "s" 0 ⟨"bob", "pw"⟩ =
      login [⟨1, "alice", "alice@example.com", hashPassword 7 "password123"⟩]
        "s" 0 ⟨"alice", "wrongpass"⟩ ∧
      login [⟨1, "alice", "alice@example.com", hashPassword 7 "password123"⟩]
        "s" 0 ⟨"bob", "pw"⟩ =
        ⟨401, none, some "Invalid credentials", none, none⟩ :=
  c9_login_failure_indistinguishable
    [⟨1, "alice", "alice@example.com", hashPassword 7 "password123"⟩] "s" 0
    ⟨"bob", "pw"⟩ ⟨"alice", "wrongpass"⟩
    ⟨1, "alice", "alice@example.com", hashPassword 7 "password123"⟩
    (by rfl) (by rfl) (by decide)

/-- C10: a successful updateTask answers with, and stores, exactly the
stored task with Title and Description taken from the request and
UpdatedAt refreshed — ID, UserID, Completed and CreatedAt are carried
over unchanged from the stored row. -/
theorem c10_update_frame (uid tid : Nat) (req : TaskRequest) (now : Nat)
    (db : List Task) (t : Task) (hfind : findTask db tid uid = some t) :
    updateTask uid tid req now db =
      (.jsonTask 200
          ⟨t.ID, req.title, req.description, t.Completed, t.UserID, t.CreatedAt, now⟩,
        saveTask db
          ⟨t.ID, req.title, req.description, t.Completed, t.UserID, t.CreatedAt, now⟩) := by
  have hrec :
      ({ t with Title := req.title, Description := req.description,
                UpdatedAt := now } : Task) =
        ⟨t.ID, req.title, req.description, t.Completed, t.UserID, t.CreatedAt, now⟩ := by
    cases t
    rfl
  simp [updateTask, hfind, hrec]

/-- C10 witness: updating task 5 changes title, description and the
update stamp, and keeps id, owner, completion flag and creation stamp. -/
theorem c10_witness :
    updateTask 1 5 ⟨"new", "nd"⟩ 99 [⟨5, "old", "od", true, 1, 10, 10⟩] =
      (.jsonTask 200 ⟨5, "new", "nd", true, 1, 10, 99⟩,
        [⟨5, "new", "nd", true, 1, 10, 99⟩]) :=
  (c10_update_frame 1 5 ⟨"new", "nd"⟩ 99 [⟨5, "old", "od", true, 1, 10, 10⟩]
    ⟨5, "old", "od", true, 1, 10, 10⟩ (by rfl)).trans (by decide)

end TaskManager
